import Mathlib

/-!
Shallow embedding of the cache-aside core of the blog users service:
the Cache Client (`internal/services/cache.go`: `Client.SetMarshal`,
`Client.Get`, `StringCmd.Result`, `StringCmd.Unmarshal`) and the Record
Service (`UsersService` with `CreateUser`, `ReadUser`, `UpdateUser`,
`DeleteUser`).

External collaborators are modelled explicitly:
- the redis store is a partial map from string keys to stored values;
  transport failures are injected through per-call environments;
- `encoding/json` on `models.User` is modelled by an abstract value
  domain `CacheVal`: `enc u` is a string that unmarshals to `u`,
  `corrupt s` a nonempty string that fails to unmarshal, `empty` the
  empty string;
- the SQL store is a partial map from identifiers to rows; a scan
  error other than `sql.ErrNoRows` is injected through the environment.

Every service operation additionally returns the list of external
calls it made (cache get/set/del, db query/exec), mirroring the
call-count instrumentation the design document asks tests to assert.
-/

namespace Blog

/-- `models.User`: identifier plus three text attributes.  The Go `uint`
identifier is carried as a `Nat`; where 64-bit wraparound matters it is
made explicit. -/
structure User where
  id : Nat
  name : String
  email : String
  password : String
deriving DecidableEq, Repr

/-- The zero value `models.User{}`: the "not found" sentinel. -/
def User.zero : User := ⟨0, "", "", ""⟩

/-- Go errors: a base error or a `fmt.Errorf("...: %w", err)` wrap. -/
inductive Err where
  | base (msg : String)
  | wrap (ctx : String) (e : Err)
deriving DecidableEq, Repr

/-- A value stored in the cache, abstracting the JSON string layer:
`enc u` unmarshals to `u`; `corrupt s` is a nonempty string that fails
to unmarshal into a `User`; `empty` is the empty string `""`. -/
inductive CacheVal where
  | enc (u : User)
  | corrupt (s : String)
  | empty
deriving DecidableEq, Repr

/-- The redis key/value store: string keys to stored values. -/
def Cache := String → Option CacheVal

/-- The durable store: the `users` table keyed by identifier. -/
def Db := Nat → Option User

/-- Combined external state seen by the service. -/
structure World where
  db : Db
  cache : Cache

/-- Point update of the cache (a successful redis `SET`). -/
def Cache.set (cache : Cache) (key : String) (v : CacheVal) : Cache :=
  fun k => if k = key then some v else cache k

/-- Point removal from the cache (a successful redis `DEL`). -/
def Cache.del (cache : Cache) (key : String) : Cache :=
  fun k => if k = key then none else cache k

/-- Outcome of the underlying `redis.Client.Get` call: a stored value,
the `redis.Nil` "no such key" sentinel, or a transport error. -/
inductive RedisReply where
  | found (v : CacheVal)
  | redisNil
  | fail (e : Err)
deriving DecidableEq, Repr

/-- The underlying redis `GET`: an injected transport error wins,
otherwise the store decides between a value and `redis.Nil`. -/
def redisGet (getErr : Option Err) (cache : Cache) (key : String) : RedisReply :=
  match getErr with
  | some e => .fail e
  | none =>
    match cache key with
    | none => .redisNil
    | some v => .found v

/-- `StringCmd.Result` from `cache.go`: maps `redis.Nil` and the empty
string to `(“”, false, nil)`, other errors to `(“”, false, err)`, and a
nonempty value to `(val, true, nil)`. -/
def StringCmd.Result (r : RedisReply) : CacheVal × Bool × Option Err :=
  match r with
  | .fail e => (.empty, false, some e)
  | .redisNil => (.empty, false, none)
  | .found v => if v = .empty then (.empty, false, none) else (v, true, none)

/-- `json.Unmarshal` into a `models.User` target, on the abstract value
domain: exactly the encoded values decode. -/
def decodeUser : CacheVal → Option User
  | .enc u => some u
  | .corrupt _ => none
  | .empty => none

/-- The error `json.Unmarshal` reports on an undecodable value. -/
def jsonUnmarshalErr : Err := .base "json: cannot unmarshal value into models.User"

/-- Wrap context used by `StringCmd.Unmarshal`. -/
def unmarshalCtx : String := "[in services.StringCmd.Unmarshal] failed to unmarshal from cache"

/-- `StringCmd.Unmarshal` from `cache.go`: same error/empty handling as
`Result`, then attempts to decode; a decode failure is reported as a
wrapped error with `found = false`.  The first component is the value
written into the caller's target (`none` when nothing was written). -/
def StringCmd.Unmarshal (r : RedisReply) : Option User × Bool × Option Err :=
  match r with
  | .fail e => (none, false, some e)
  | .redisNil => (none, false, none)
  | .found v =>
    if v = .empty then (none, false, none)
    else
      match decodeUser v with
      | some u => (some u, true, none)
      | none => (none, false, some (.wrap unmarshalCtx jsonUnmarshalErr))

/-- Wrap context used by `Client.SetMarshal` on a marshal failure. -/
def setMarshalCtx : String := "[in services.Client.Set] failed to marshal value"

/-- `Client.SetMarshal` from `cache.go`, parameterized by the outcome of
`json.Marshal` and by an injected store-write error: a marshal failure
returns a wrapped error before any store call; a write failure returns
the error unchanged; otherwise the key is set.  Returns the resulting
store and the returned error. -/
def Client.SetMarshal (marshalRes : Except Err CacheVal) (setErr : Option Err)
    (cache : Cache) (key : String) : Cache × Option Err :=
  match marshalRes with
  | .error e => (cache, some (.wrap setMarshalCtx e))
  | .ok v =>
    match setErr with
    | some e => (cache, some e)
    | none => (Cache.set cache key v, none)

/-- `json.Marshal` on a `models.User` value: total on this struct type
(a struct of an unsigned integer and strings never fails to marshal). -/
def marshalUser (u : User) : CacheVal := .enc u

/-- `strconv.FormatUint(id, 10)`: decimal rendering of the unsigned id. -/
def formatUint (id : Nat) : String := toString id

/-- Go's `int(x)` conversion applied to a `uint64` value on a 64-bit
platform: two's-complement reinterpretation. -/
def goIntOfUint64 (x : Nat) : Int :=
  if x < 2 ^ 63 then (x : Int) else (x : Int) - 2 ^ 64

/-- `strconv.Itoa`: decimal rendering of a signed int. -/
def itoa (i : Int) : String := toString i

/-- The cache key `CreateUser` uses: `strconv.Itoa(int(user.ID))`. -/
def createKey (id : Nat) : String := itoa (goIntOfUint64 id)

/-- External calls a service operation performs, in order. -/
inductive Event where
  | cacheGet (key : String)
  | cacheSet (key : String)
  | cacheDel (key : String)
  | dbQuery (id : Nat)
  | dbInsert (id : Nat)
  | dbExec (id : Nat)
deriving DecidableEq, Repr

/-- Error-injection environment for one `ReadUser` call: a transport
error on the cache `GET`, a non-`ErrNoRows` failure on the row scan,
and an error on the cache `SET`. -/
structure ReadEnv where
  getErr : Option Err
  dbErr : Option Err
  setErr : Option Err

/-- A `ReadEnv` with no injected failures. -/
def ReadEnv.ok : ReadEnv := ⟨none, none, none⟩

def readCtxCache : String := "[in services.UsersService.ReadUser] failed to read user from cache"

def readCtxDb : String := "[in services.UsersService.ReadUser] failed to read user"

def readCtxSet : String := "[in services.UsersService.ReadUser] failed to write user to cache"

/-- `UsersService.ReadUser`: cache-aside read.  Checks the cache under
`formatUint id`; a cache error propagates wrapped; a hit returns the
decoded user; a miss queries the durable store; `sql.ErrNoRows` yields
the zero user with no error and no cache write; a row is written back
to the cache before being returned; a cache-write failure propagates.
Returns the resulting world, the Go return pair, and the event trace. -/
def UsersService.ReadUser (env : ReadEnv) (w : World) (id : Nat) :
    World × (User × Option Err) × List Event :=
  let key := formatUint id
  let res := StringCmd.Unmarshal (redisGet env.getErr w.cache key)
  match res.2.2 with
  | some e => (w, (User.zero, some (.wrap readCtxCache e)), [.cacheGet key])
  | none =>
    if res.2.1 then
      (w, (res.1.getD User.zero, none), [.cacheGet key])
    else
      match env.dbErr with
      | some e => (w, (User.zero, some (.wrap readCtxDb e)), [.cacheGet key, .dbQuery id])
      | none =>
        match w.db id with
        | none => (w, (User.zero, none), [.cacheGet key, .dbQuery id])
        | some u =>
          match Client.SetMarshal (.ok (marshalUser u)) env.setErr w.cache key with
          | (cache2, some e) =>
            ({ w with cache := cache2 }, (User.zero, some (.wrap readCtxSet e)),
              [.cacheGet key, .dbQuery id, .cacheSet key])
          | (cache2, none) =>
            ({ w with cache := cache2 }, (u, none),
              [.cacheGet key, .dbQuery id, .cacheSet key])

/-- Error-injection environment for one `CreateUser` call: the INSERT
either returns a generated identifier or fails; plus a cache `SET`
error. -/
structure CreateEnv where
  insertRes : Except Err Nat
  setErr : Option Err

def createCtxDb : String := "[in services.UsersService.CreateUser] failed to create user"

def createCtxCache : String := "[in services.UsersService.CreateUser] failed to write user to cache"

/-- `UsersService.CreateUser`: inserts the row (the store assigns the
identifier), then writes the hydrated user to the cache under
`strconv.Itoa(int(user.ID))`.  A cache-write failure propagates. -/
def UsersService.CreateUser (env : CreateEnv) (w : World) (user : User) :
    World × (User × Option Err) × List Event :=
  match env.insertRes with
  | .error e => (w, (User.zero, some (.wrap createCtxDb e)), [.dbInsert 0])
  | .ok newId =>
    let user2 : User := { user with id := newId }
    let w1 : World := { w with db := fun i => if i = newId then some user2 else w.db i }
    let key := createKey newId
    match Client.SetMarshal (.ok (marshalUser user2)) env.setErr w1.cache key with
    | (cache2, some e) =>
      ({ w1 with cache := cache2 }, (User.zero, some (.wrap createCtxCache e)),
        [.dbInsert newId, .cacheSet key])
    | (cache2, none) =>
      ({ w1 with cache := cache2 }, (user2, none), [.dbInsert newId, .cacheSet key])

/-- The durable effect of `UPDATE users SET name, email, password WHERE
id = $4`: if a row with this id exists its three attributes are
replaced; otherwise zero rows are affected and nothing changes. -/
def Db.applyPatch (db : Db) (id : Nat) (patch : User) : Db :=
  fun i =>
    if i = id then
      match db i with
      | some u => some { u with name := patch.name, email := patch.email,
                                password := patch.password }
      | none => none
    else db i

/-- Error-injection environment for one `UpdateUser` call: an error on
the UPDATE exec, the environment of the nested `ReadUser` call, and an
error on the final cache `SET`. -/
structure UpdateEnv where
  execErr : Option Err
  read : ReadEnv
  setErr : Option Err

/-- An `UpdateEnv` with no injected failures. -/
def UpdateEnv.ok : UpdateEnv := ⟨none, ReadEnv.ok, none⟩

def updateCtxExec : String := "[in services.UsersService.UpdateUser] failed to update user"

def updateCtxRead : String := "[in services.UsersService.UpdateUser] failed to read updated user"

def updateCtxSet : String := "[in services.UsersService.UpdateUser] failed to write updated user to cache"

/-- `UsersService.UpdateUser`: runs the UPDATE, then reads the user back
through `UsersService.ReadUser` (which consults the cache first), then
writes whatever that read returned to the cache under `formatUint id`. -/
def UsersService.UpdateUser (env : UpdateEnv) (w : World) (id : Nat) (patch : User) :
    World × (User × Option Err) × List Event :=
  match env.execErr with
  | some e => (w, (User.zero, some (.wrap updateCtxExec e)), [.dbExec id])
  | none =>
    let w1 : World := { w with db := Db.applyPatch w.db id patch }
    match UsersService.ReadUser env.read w1 id with
    | (w2, (_, some e), tr) =>
      (w2, (User.zero, some (.wrap updateCtxRead e)), .dbExec id :: tr)
    | (w2, (user, none), tr) =>
      let key := formatUint id
      match Client.SetMarshal (.ok (marshalUser user)) env.setErr w2.cache key with
      | (cache2, some e) =>
        ({ w2 with cache := cache2 }, (User.zero, some (.wrap updateCtxSet e)),
          .dbExec id :: (tr ++ [.cacheSet key]))
      | (cache2, none) =>
        ({ w2 with cache := cache2 }, (user, none), .dbExec id :: (tr ++ [.cacheSet key]))

/-- Error-injection environment for one `DeleteUser` call: an error on
the DELETE exec and an error on the cache `DEL`. -/
structure DeleteEnv where
  execErr : Option Err
  delErr : Option Err

def deleteCtxExec : String := "[in services.UsersService.DeleteUser] failed to delete user"

def deleteCtxDel : String := "[in services.UsersService.DeleteUser] failed to remove user from cache"

/-- `UsersService.DeleteUser`: deletes the durable row first; only if
that succeeds is the cache key `formatUint id` deleted. -/
def UsersService.DeleteUser (env : DeleteEnv) (w : World) (id : Nat) :
    World × Option Err × List Event :=
  match env.execErr with
  | some e => (w, some (.wrap deleteCtxExec e), [.dbExec id])
  | none =>
    let w1 : World := { w with db := fun i => if i = id then none else w.db i }
    let key := formatUint id
    match env.delErr with
    | some e => (w1, some (.wrap deleteCtxDel e), [.dbExec id, .cacheDel key])
    | none =>
      ({ w1 with cache := Cache.del w1.cache key }, none, [.dbExec id, .cacheDel key])

/-! ## Helper lemmas and concrete fixtures -/

/-- An empty world: no durable rows, no cache entries. -/
def World.empty : World := ⟨fun _ => none, fun _ => none⟩

/-- The spec's concrete scenario row: `{id:7, name:"Ann", email:"a@x.com", credential:"p"}`. -/
def userAnn : User := ⟨7, "Ann", "a@x.com", "p"⟩

/-- A world whose cache holds the encoded `userAnn` under key `"7"`. -/
def worldHit : World :=
  ⟨fun _ => none, fun k => if k = "7" then some (.enc userAnn) else none⟩

/-- A world whose cache holds an undecodable value under key `"7"`. -/
def worldCorrupt : World :=
  ⟨fun _ => none, fun k => if k = "7" then some (.corrupt "oops") else none⟩

/-- A cache holding the empty string under key `"e"` and nothing else. -/
def cacheEmptyVal : Cache := fun k => if k = "e" then some .empty else none

theorem readUser_clean_miss_absent (env : ReadEnv) (w : World) (id : Nat)
    (hg : env.getErr = none) (hdb : env.dbErr = none)
    (hc : w.cache (formatUint id) = none) (hd : w.db id = none) :
    UsersService.ReadUser env w id
      = (w, (User.zero, none), [.cacheGet (formatUint id), .dbQuery id]) := by
  simp [UsersService.ReadUser, redisGet, hg, hdb, hc, hd, StringCmd.Unmarshal]

theorem readUser_hit (env : ReadEnv) (w : World) (id : Nat) (u : User)
    (hg : env.getErr = none) (hc : w.cache (formatUint id) = some (CacheVal.enc u)) :
    UsersService.ReadUser env w id = (w, (u, none), [.cacheGet (formatUint id)]) := by
  simp [UsersService.ReadUser, redisGet, hg, hc, StringCmd.Unmarshal, decodeUser]

/-! ## Claim theorems -/

/-- C2: for an id absent from both the cache and durable storage,
`ReadUser` returns the zero-value record with no error and leaves the
world (in particular the cache) entirely unchanged, performing only a
cache get and a db query; the result being the unchanged world makes
every subsequent call behave identically. -/
theorem readUser_not_found_idempotent (env : ReadEnv) (w : World) (id : Nat)
    (hg : env.getErr = none) (hdb : env.dbErr = none)
    (hc : w.cache (formatUint id) = none) (hd : w.db id = none) :
    UsersService.ReadUser env w id
      = (w, (User.zero, none), [.cacheGet (formatUint id), .dbQuery id]) :=
  readUser_clean_miss_absent env w id hg hdb hc hd

theorem readUser_not_found_idempotent_witness :
    ReadEnv.ok.getErr = none ∧ ReadEnv.ok.dbErr = none
    ∧ World.empty.cache (formatUint 7) = none ∧ World.empty.db 7 = none
    ∧ UsersService.ReadUser ReadEnv.ok World.empty 7
        = (World.empty, (User.zero, none), [.cacheGet (formatUint 7), .dbQuery 7]) :=
  ⟨rfl, rfl, rfl, rfl,
    readUser_not_found_idempotent ReadEnv.ok World.empty 7 rfl rfl rfl rfl⟩

/-- C3: when the cache lookup finds and successfully decodes a cached
record, `ReadUser` returns it immediately; the event trace is the
single cache get, so durable storage is not queried and the world is
unchanged. -/
theorem readUser_fast_path (env : ReadEnv) (w : World) (id : Nat) (u : User)
    (hg : env.getErr = none) (hc : w.cache (formatUint id) = some (CacheVal.enc u)) :
    UsersService.ReadUser env w id = (w, (u, none), [.cacheGet (formatUint id)]) :=
  readUser_hit env w id u hg hc

theorem readUser_fast_path_witness :
    ReadEnv.ok.getErr = none
    ∧ worldHit.cache (formatUint 7) = some (CacheVal.enc userAnn)
    ∧ UsersService.ReadUser ReadEnv.ok worldHit 7
        = (worldHit, (userAnn, none), [.cacheGet (formatUint 7)]) :=
  ⟨rfl, rfl, readUser_fast_path ReadEnv.ok worldHit 7 userAnn rfl rfl⟩

/-- C4: when the cache lookup reports any error (transport failure or
decode failure), `ReadUser` returns that error wrapped with its own
context immediately; the trace is the single cache get, so it does not
fall through to durable storage. -/
theorem readUser_cache_error_propagates (env : ReadEnv) (w : World) (id : Nat) (e : Err)
    (h : (StringCmd.Unmarshal (redisGet env.getErr w.cache (formatUint id))).2.2 = some e) :
    UsersService.ReadUser env w id
      = (w, (User.zero, some (.wrap readCtxCache e)), [.cacheGet (formatUint id)]) := by
  simp [UsersService.ReadUser, h]

theorem readUser_cache_error_propagates_witness :
    (StringCmd.Unmarshal
        (redisGet (some (Err.base "conn refused")) World.empty.cache (formatUint 7))).2.2
      = some (Err.base "conn refused")
    ∧ UsersService.ReadUser ⟨some (Err.base "conn refused"), none, none⟩ World.empty 7
        = (World.empty,
            (User.zero, some (.wrap readCtxCache (Err.base "conn refused"))),
            [.cacheGet (formatUint 7)]) :=
  ⟨rfl, readUser_cache_error_propagates
      ⟨some (Err.base "conn refused"), none, none⟩ World.empty 7 (Err.base "conn refused") rfl⟩

/-- C5: `StringCmd.Result` returns `found = false` with no error when
the key is absent or the stored value is the empty string, returns
`found = false` with the error on a transport failure, and never
returns `found = true` together with an error. -/
theorem result_found_error_trichotomy (cache : Cache) (key : String) (e : Err) :
    (cache key = none → StringCmd.Result (redisGet none cache key) = (.empty, false, none))
    ∧ (cache key = some CacheVal.empty →
        StringCmd.Result (redisGet none cache key) = (.empty, false, none))
    ∧ StringCmd.Result (redisGet (some e) cache key) = (.empty, false, some e)
    ∧ ∀ r : RedisReply,
        (StringCmd.Result r).2.1 = true → (StringCmd.Result r).2.2 = none := by
  refine ⟨?_, ?_, ?_, ?_⟩
  · intro h
    simp [redisGet, h, StringCmd.Result]
  · intro h
    simp [redisGet, h, StringCmd.Result]
  · simp [redisGet, StringCmd.Result]
  · intro r hr
    cases r with
    | fail e2 => simp [StringCmd.Result] at hr
    | redisNil => simp [StringCmd.Result] at hr
    | found v =>
      by_cases hv : v = CacheVal.empty <;>
        simp [StringCmd.Result, hv] at hr ⊢

theorem result_found_error_trichotomy_witness :
    StringCmd.Result (redisGet none cacheEmptyVal "x") = (.empty, false, none)
    ∧ StringCmd.Result (redisGet none cacheEmptyVal "e") = (.empty, false, none)
    ∧ StringCmd.Result (redisGet (some (Err.base "down")) cacheEmptyVal "x")
        = (.empty, false, some (Err.base "down"))
    ∧ (StringCmd.Result (RedisReply.found (CacheVal.enc userAnn))).2.2 = none :=
  ⟨(result_found_error_trichotomy cacheEmptyVal "x" (Err.base "down")).1 (by decide),
    (result_found_error_trichotomy cacheEmptyVal "e" (Err.base "down")).2.1 (by decide),
    (result_found_error_trichotomy cacheEmptyVal "x" (Err.base "down")).2.2.1,
    (result_found_error_trichotomy cacheEmptyVal "x" (Err.base "down")).2.2.2
      (RedisReply.found (CacheVal.enc userAnn)) (by decide)⟩

/-- C6: a stored value that exists but fails to decode makes
`StringCmd.Unmarshal` report a wrapped error (not a clean not-found),
and consequently `ReadUser` returns an error rather than the zero
record. -/
theorem decode_failure_is_error (env : ReadEnv) (w : World) (id : Nat) (s : String)
    (hg : env.getErr = none)
    (hc : w.cache (formatUint id) = some (CacheVal.corrupt s)) :
    StringCmd.Unmarshal (redisGet env.getErr w.cache (formatUint id))
      = (none, false, some (.wrap unmarshalCtx jsonUnmarshalErr))
    ∧ UsersService.ReadUser env w id
      = (w, (User.zero, some (.wrap readCtxCache (.wrap unmarshalCtx jsonUnmarshalErr))),
          [.cacheGet (formatUint id)]) := by
  constructor
  · simp [redisGet, hg, hc, StringCmd.Unmarshal, decodeUser]
  · simp [UsersService.ReadUser, redisGet, hg, hc, StringCmd.Unmarshal, decodeUser]

theorem decode_failure_is_error_witness :
    ReadEnv.ok.getErr = none
    ∧ worldCorrupt.cache (formatUint 7) = some (CacheVal.corrupt "oops")
    ∧ StringCmd.Unmarshal (redisGet ReadEnv.ok.getErr worldCorrupt.cache (formatUint 7))
        = (none, false, some (.wrap unmarshalCtx jsonUnmarshalErr))
    ∧ UsersService.ReadUser ReadEnv.ok worldCorrupt 7
        = (worldCorrupt,
            (User.zero, some (.wrap readCtxCache (.wrap unmarshalCtx jsonUnmarshalErr))),
            [.cacheGet (formatUint 7)]) :=
  ⟨rfl, rfl,
    (decode_failure_is_error ReadEnv.ok worldCorrupt 7 "oops" rfl rfl).1,
    (decode_failure_is_error ReadEnv.ok worldCorrupt 7 "oops" rfl rfl).2⟩

/-- Every branch of `ReadUser` begins with the cache lookup under
`formatUint id`. -/
theorem readUser_trace_head (env : ReadEnv) (w : World) (id : Nat) :
    ((UsersService.ReadUser env w id).2.2).head? = some (.cacheGet (formatUint id)) := by
  rcases hU : StringCmd.Unmarshal (redisGet env.getErr w.cache (formatUint id))
    with ⟨vO, fnd, errO⟩
  rcases hdb : env.dbErr with _ | e1 <;>
    rcases hrow : w.db id with _ | u1 <;>
      rcases hse : env.setErr with _ | e2 <;>
        cases errO <;> cases fnd <;>
          simp [UsersService.ReadUser, hU, hdb, hrow, hse, Client.SetMarshal]

/-- C7: `Client.SetMarshal` is all-or-nothing.  A marshal failure
returns a wrapped error and leaves the store untouched, whatever the
store would have answered; on a successful marshal the key is written
exactly when the store write succeeds, and the write error is returned
otherwise with the store unchanged. -/
theorem setMarshal_all_or_nothing (cache : Cache) (key : String) (e : Err) (v : CacheVal) :
    (∀ se : Option Err,
        Client.SetMarshal (.error e) se cache key
          = (cache, some (.wrap setMarshalCtx e)))
    ∧ Client.SetMarshal (.ok v) none cache key = (Cache.set cache key v, none)
    ∧ ∀ e2 : Err, Client.SetMarshal (.ok v) (some e2) cache key = (cache, some e2) :=
  ⟨fun _ => rfl, rfl, fun _ => rfl⟩

/-- C8: `DeleteUser` deletes the durable row before touching the cache.
A failed durable delete returns the wrapped error with the whole world
(cache included) untouched; a failed cache delete leaves the cache as
it was; on success the cache key is removed after the row, in the
order the trace shows. -/
theorem deleteUser_durable_before_cache (w : World) (id : Nat) (e : Err) (de : Option Err) :
    UsersService.DeleteUser ⟨some e, de⟩ w id
      = (w, some (.wrap deleteCtxExec e), [.dbExec id])
    ∧ (UsersService.DeleteUser ⟨none, some e⟩ w id).1.cache = w.cache
    ∧ (UsersService.DeleteUser ⟨none, some e⟩ w id).2.1 = some (.wrap deleteCtxDel e)
    ∧ (UsersService.DeleteUser ⟨none, none⟩ w id).1.cache (formatUint id) = none
    ∧ (UsersService.DeleteUser ⟨none, none⟩ w id).1.db id = none
    ∧ (UsersService.DeleteUser ⟨none, none⟩ w id).2.2
        = [.dbExec id, .cacheDel (formatUint id)] := by
  refine ⟨rfl, rfl, rfl, ?_, ?_, rfl⟩
  · simp [UsersService.DeleteUser, Cache.del]
  · simp [UsersService.DeleteUser]

/-- The identifier `2^63`: representable as a `uint64` but not as a
non-negative 64-bit `int`. -/
def bigId : Nat := 2 ^ 63

/-- `CreateUser` run with store-assigned identifier `2^63` on an empty
world. -/
def createRunBig : World × (User × Option Err) × List Event :=
  UsersService.CreateUser ⟨.ok bigId, none⟩ World.empty userAnn

/-- C9 counterexample: at identifier `2^63`, `CreateUser` renders the
cache key through `strconv.Itoa(int(id))`, producing the signed string
`"-9223372036854775808"`, while `ReadUser` and `DeleteUser` use the
unsigned rendering `"9223372036854775808"`; the created record is
cached under a key the read path never consults, so the next read
misses the cache and falls back to durable storage. -/
theorem createKey_signed_wrap_cex :
    createKey bigId ≠ formatUint bigId
    ∧ createKey bigId = "-9223372036854775808"
    ∧ formatUint bigId = "9223372036854775808"
    ∧ createRunBig.1.cache (formatUint bigId) = none
    ∧ createRunBig.1.cache (createKey bigId)
        = some (marshalUser ⟨bigId, "Ann", "a@x.com", "p"⟩)
    ∧ (UsersService.ReadUser ReadEnv.ok createRunBig.1 bigId).2.2
        = [.cacheGet (formatUint bigId), .dbQuery bigId, .cacheSet (formatUint bigId)] := by
  decide

/-- C9 amended: for every identifier below `2^63`, the signed rendering
`CreateUser` uses agrees with the unsigned decimal rendering, so the
key under which `CreateUser` stores a new record is the very key
`ReadUser` consults first and `DeleteUser` removes. -/
theorem cache_keys_agree_below_2_63 (id : Nat) (w : World) (u : User)
    (se : Option Err) (de : Option Err) (h : id < 2 ^ 63) :
    createKey id = formatUint id
    ∧ (UsersService.CreateUser ⟨.ok id, se⟩ w u).2.2
        = [.dbInsert id, .cacheSet (formatUint id)]
    ∧ (∀ env : ReadEnv, ∀ w2 : World,
        ((UsersService.ReadUser env w2 id).2.2).head? = some (.cacheGet (formatUint id)))
    ∧ (UsersService.DeleteUser ⟨none, de⟩ w id).2.2
        = [.dbExec id, .cacheDel (formatUint id)] := by
  have hkey : createKey id = formatUint id := by
    unfold createKey itoa formatUint goIntOfUint64
    rw [if_pos h]
    rfl
  refine ⟨hkey, ?_, fun env w2 => readUser_trace_head env w2 id, ?_⟩
  · cases se <;> simp [UsersService.CreateUser, Client.SetMarshal, hkey]
  · cases de <;> simp [UsersService.DeleteUser]

theorem cache_keys_agree_below_2_63_witness :
    42 < 2 ^ 63
    ∧ createKey 42 = formatUint 42
    ∧ (UsersService.CreateUser ⟨.ok 42, none⟩ World.empty userAnn).2.2
        = [.dbInsert 42, .cacheSet (formatUint 42)]
    ∧ ((UsersService.ReadUser ReadEnv.ok World.empty 42).2.2).head?
        = some (.cacheGet (formatUint 42))
    ∧ (UsersService.DeleteUser ⟨none, none⟩ World.empty 42).2.2
        = [.dbExec 42, .cacheDel (formatUint 42)] := by
  have h := cache_keys_agree_below_2_63 42 World.empty userAnn none none (by decide)
  exact ⟨by decide, h.1, h.2.1, h.2.2.1 ReadEnv.ok World.empty, h.2.2.2⟩

/-- C10: for an id with no durable row and no cache entry, `UpdateUser`
with no injected failures returns the zero record with no error, still
has no durable row for the id afterwards, and writes the encoded zero
record into the cache under the id's key. -/
theorem updateUser_absent_caches_zero (w : World) (id : Nat) (patch : User)
    (hc : w.cache (formatUint id) = none) (hd : w.db id = none) :
    (UsersService.UpdateUser UpdateEnv.ok w id patch).2.1 = (User.zero, none)
    ∧ (UsersService.UpdateUser UpdateEnv.ok w id patch).1.cache (formatUint id)
        = some (marshalUser User.zero)
    ∧ (UsersService.UpdateUser UpdateEnv.ok w id patch).1.db id = none := by
  have hw1d : Db.applyPatch w.db id patch id = none := by
    simp [Db.applyPatch, hd]
  have hr := readUser_clean_miss_absent ReadEnv.ok
    ⟨Db.applyPatch w.db id patch, w.cache⟩ id rfl rfl hc hw1d
  refine ⟨?_, ?_, ?_⟩ <;>
    simp [UsersService.UpdateUser, UpdateEnv.ok, hr, Client.SetMarshal, marshalUser,
      Cache.set, hw1d]

theorem updateUser_absent_caches_zero_witness :
    World.empty.cache (formatUint 9) = none
    ∧ World.empty.db 9 = none
    ∧ (UsersService.UpdateUser UpdateEnv.ok World.empty 9 userAnn).2.1 = (User.zero, none)
    ∧ (UsersService.UpdateUser UpdateEnv.ok World.empty 9 userAnn).1.cache (formatUint 9)
        = some (marshalUser User.zero)
    ∧ (UsersService.UpdateUser UpdateEnv.ok World.empty 9 userAnn).1.db 9 = none := by
  have h := updateUser_absent_caches_zero World.empty 9 userAnn rfl rfl
  exact ⟨rfl, rfl, h.1, h.2.1, h.2.2⟩

/-- The pre-patch row and cache entry for identifier 1. -/
def staleUser : User := ⟨1, "Old", "old@x.com", "po"⟩

/-- The patch applied to identifier 1. -/
def patchUser : User := ⟨0, "New", "new@x.com", "pn"⟩

/-- The durable row after the patch is applied. -/
def patchedRow : User := ⟨1, "New", "new@x.com", "pn"⟩

/-- A world where row 1 exists and the cache already holds its encoding. -/
def worldStale : World :=
  ⟨fun i => if i = 1 then some staleUser else none,
    fun k => if k = "1" then some (.enc staleUser) else none⟩

/-- `UpdateUser` run on `worldStale` with no injected failures. -/
def updateRunStale : World × (User × Option Err) × List Event :=
  UsersService.UpdateUser UpdateEnv.ok worldStale 1 patchUser

/-- C1 failing run: with a pre-existing cache entry, `UpdateUser`
patches the durable row but reads the user back through `ReadUser`,
which serves the stale cache entry; the stale value is re-cached and
returned, and the subsequent `ReadUser` still returns the pre-patch
value, not the patched row. -/
theorem updateUser_recaches_stale_entry :
    updateRunStale.2.1 = (staleUser, none)
    ∧ updateRunStale.1.db 1 = some patchedRow
    ∧ updateRunStale.1.cache (formatUint 1) = some (marshalUser staleUser)
    ∧ (UsersService.ReadUser ReadEnv.ok updateRunStale.1 1).2.1 = (staleUser, none)
    ∧ staleUser ≠ patchedRow := by
  decide

end Blog
